import Mathlib

/-!
Verification of the multi-agent generation orchestrator of the Gemini-Heavy
chat client (src/index.tsx) against its natural-language specification.

The development is a shallow embedding: the pure computations of the source
(stage-list construction, stage-status updates, the progress ratio, the
memory-list updates, history truncation, the search gate condition and the
generation pipeline of executeGeneration) are translated into executable
Lean definitions.  Remote model calls are modelled by an oracle
(a Gateway : CallKind to Except GenError String); the pipeline records the
calls it issues in a trace, in issue order, so fan-out counts and
conditional calls can be stated and proved.  UI-only data (icons, CSS,
timers) is omitted; minimum-display-time sleeps perform no call and do not
appear in the trace.
-/

/-- Research mode setting, source type ResearchMode (src/index.tsx line 211). -/
inductive ResearchMode
  | offline
  | web
  | deep
deriving DecidableEq

/-- Generation depth setting, source type GenerationDepth (line 213). -/
inductive GenerationDepth
  | fast
  | balanced
  | deep
deriving DecidableEq

/-- Stage status, source type TaskStatus (line 210). -/
inductive TaskStatus
  | pending
  | active
  | completed
deriving DecidableEq

/-- One stage of the loading indicator, source interface LoadingTask
(lines 215-219).  The icon field (a ReactNode) is dropped: it is UI-only
and never inspected by the logic. -/
structure LoadingTask where
  name : String
  status : TaskStatus
deriving DecidableEq

/-- Source constant HISTORY_PROCESSING_TASK (line 221). -/
def HISTORY_PROCESSING_TASK : LoadingTask := { name := "Processando histórico...", status := .pending }

/-- Source constant BRAINSTORMING_TASK (line 222). -/
def BRAINSTORMING_TASK : LoadingTask := { name := "Brainstorming...", status := .pending }

/-- Source constant REFINING_TASK (line 223). -/
def REFINING_TASK : LoadingTask := { name := "Refinando rascunhos...", status := .pending }

/-- Source constant SYNTHESIZING_TASK (line 224). -/
def SYNTHESIZING_TASK : LoadingTask := { name := "Sintetizando resposta...", status := .pending }

/-- Source constant CRITIC_TASK (line 225). -/
def CRITIC_TASK : LoadingTask := { name := "Revisão crítica...", status := .pending }

/-- Source constant SEARCHING_TASK (line 226). -/
def SEARCHING_TASK : LoadingTask := { name := "Pesquisando na web...", status := .pending }

/-- Source constant OFFLINE_TASKS (lines 229-235). -/
def OFFLINE_TASKS : List LoadingTask :=
  [HISTORY_PROCESSING_TASK, BRAINSTORMING_TASK, REFINING_TASK, SYNTHESIZING_TASK, CRITIC_TASK]

/-- Source constant WEB_RESEARCH_TASKS (lines 236-243). -/
def WEB_RESEARCH_TASKS : List LoadingTask :=
  [HISTORY_PROCESSING_TASK, SEARCHING_TASK, BRAINSTORMING_TASK, REFINING_TASK,
   SYNTHESIZING_TASK, CRITIC_TASK]

/-- Source constant DEEP_RESEARCH_TASKS (lines 244-251). -/
def DEEP_RESEARCH_TASKS : List LoadingTask :=
  [HISTORY_PROCESSING_TASK, SEARCHING_TASK, BRAINSTORMING_TASK, REFINING_TASK,
   SYNTHESIZING_TASK, CRITIC_TASK]

/-- The single-stage list used by the fast path, source line 1241. -/
def FAST_TASK : LoadingTask := { name := "Gerando resposta...", status := .pending }

/-- Stage-list construction performed at the start of executeGeneration
(source lines 1240-1254): depth = fast yields one stage; otherwise the
template is selected by research mode (switch with default = offline) and,
when self-correction is disabled, stages named like CRITIC_TASK are
filtered out; finally every status is reset to pending. -/
def buildTasks (mode : ResearchMode) (depth : GenerationDepth)
    (isSelfCorrectionEnabled : Bool) : List LoadingTask :=
  if depth == .fast then
    [FAST_TASK]
  else
    let currentTaskTemplate : List LoadingTask :=
      match mode with
      | .web => WEB_RESEARCH_TASKS
      | .deep => DEEP_RESEARCH_TASKS
      | .offline => OFFLINE_TASKS
    let tasksForRun :=
      if isSelfCorrectionEnabled then currentTaskTemplate
      else currentTaskTemplate.filter (fun t => t.name != CRITIC_TASK.name)
    tasksForRun.map (fun task => { task with status := .pending })

/-- The per-element update applied by updateTaskStatus to the task at
position i when the argument index and status are idx and st. -/
def setTaskStatus (idx : Nat) (st : TaskStatus) (i : Nat) (t : LoadingTask) : LoadingTask :=
  if i < idx then { t with status := .completed }
  else if i == idx then { t with status := st }
  else { t with status := .pending }

/-- Index-carrying recursion implementing the indexed map of the source
callback prev.map((task, i) => ...) (lines 1256-1264). -/
def updateTaskStatusAux (idx : Nat) (st : TaskStatus) : Nat → List LoadingTask → List LoadingTask
  | _, [] => []
  | i, t :: ts => setTaskStatus idx st i t :: updateTaskStatusAux idx st (i + 1) ts

/-- Source function updateTaskStatus (lines 1256-1264): stage idx gets the
given status, all earlier stages become completed, all later stages become
pending. -/
def updateTaskStatus (idx : Nat) (st : TaskStatus) (tasks : List LoadingTask) : List LoadingTask :=
  updateTaskStatusAux idx st 0 tasks

/-- Advancing the tracker to stage i, as the orchestrator does when a stage
begins: updateTaskStatus(i, active). -/
def advance (i : Nat) (tasks : List LoadingTask) : List LoadingTask :=
  updateTaskStatus i .active tasks

/-- Count of completed stages, source line 261. -/
def completedCount (tasks : List LoadingTask) : Nat :=
  (tasks.filter (fun t => t.status == .completed)).length

/-- JavaScript division on finite numbers: dividing by zero does not
produce a finite number (Infinity or NaN), modelled as none. -/
def jsDiv (a b : ℚ) : Option ℚ :=
  if b = 0 then none else some (a / b)

/-- The progress percentage computed by LoadingIndicator (source line 262):
tasks.length > 0 ? (completedCount / (tasks.length - 1)) * 100 : 0.
A none result means the JavaScript value is non-finite (NaN or Infinity),
which happens exactly when the guard passes but the divisor is zero. -/
def progressPercentage (tasks : List LoadingTask) : Option ℚ :=
  if tasks.length > 0 then
    (jsDiv (completedCount tasks) ((tasks.length : ℚ) - 1)).map (fun q => q * 100)
  else some 0

/-- Character-level trim: drop whitespace from both ends. -/
def trimChars (l : List Char) : List Char :=
  ((l.dropWhile Char.isWhitespace).reverse.dropWhile Char.isWhitespace).reverse

/-- JavaScript String.prototype.trim, modelled structurally over the
underlying character list so that it evaluates inside the kernel. -/
def jsTrim (s : String) : String :=
  ⟨trimChars s.data⟩

/-- JavaScript String.prototype.toUpperCase (ASCII letters; the only
comparison made with it in the source is against the ASCII word PERFECT). -/
def jsToUpper (s : String) : String :=
  ⟨s.data.map Char.toUpper⟩

/-- JavaScript String.prototype.toLowerCase (ASCII letters; used only for
the case-insensitive deadline test of the error classifier). -/
def jsToLower (s : String) : String :=
  ⟨s.data.map Char.toLower⟩

/-- Long-term-memory list update performed by generateAndStoreMemory after
the summariser call returns (source lines 1155-1161): the response text is
trimmed; if it is truthy and longer than 10 characters it is prepended,
existing equal entries are filtered out, and the list is cut to
MAX_MEMORIES = 20; otherwise the list is unchanged. -/
def storeMemory (responseText : String) (prev : List String) : List String :=
  let newMemory := jsTrim responseText
  if newMemory != "" && newMemory.length > 10 then
    (newMemory :: prev.filter (fun m => m != newMemory)).take 20
  else prev

/-- Manual memory addition through the memory management modal: handleAdd
(lines 451-457) calls onAdd with the trimmed text when it is non-empty, and
onAdd (line 1654) prepends it with no length check, no deduplication and no
cap. -/
def manualAddMemory (inputText : String) (prev : List String) : List String :=
  if jsTrim inputText != "" then jsTrim inputText :: prev else prev

/-- Message role, source interface Message (line 28). -/
inductive Role
  | user
  | model
deriving DecidableEq

/-- A content part: text, or binary attachment data (inlineData with a mime
type and base64 payload), source Part usage (lines 949-954, 1506). -/
inductive MsgPart
  | text (s : String)
  | inlineData (mimeType : String) (data : String)
deriving DecidableEq

/-- Intermediate drafts attached to a model message, source interface
GenerationDetails (lines 17-20). -/
structure GenerationDetails where
  initial : List String
  refined : List String
deriving DecidableEq

/-- A conversation message, source interface Message (lines 27-35).
The sources, attachedFiles and toolOutputs fields are omitted: no claim
constrains their contents, and they carry no control-flow. -/
structure Message where
  role : Role
  parts : List MsgPart
  isError : Bool := false
  generationDetails : Option GenerationDetails := none
deriving DecidableEq

/-- The settings a run consumes, captured from component state. -/
structure Config where
  researchMode : ResearchMode
  generationDepth : GenerationDepth
  isSelfCorrectionEnabled : Bool
deriving DecidableEq

/-- A failure surfaced by the model gateway; message mirrors Error.message
inspected by the catch block (lines 1458-1465). -/
structure GenError where
  message : String
deriving DecidableEq

/-- Identity of one model-gateway call issued by executeGeneration.
Fan-out calls carry their index within the fan-out. -/
inductive CallKind
  | search
  | initial (i : Nat)
  | refine (i : Nat)
  | synthesis
  | critique
  | resynthesis
  | fastGen
deriving DecidableEq

/-- The model gateway oracle: for each call the remote API either returns
the generated text or rejects with an error.  The oracle is deterministic
per call kind, which suffices because each kind is issued at most once per
run. -/
def Gateway : Type := CallKind → Except GenError String

/-- True when the second list is an initial segment of the first. -/
def charsStartWith : List Char → List Char → Bool
  | _, [] => true
  | [], _ :: _ => false
  | c :: cs, d :: ds => c == d && charsStartWith cs ds

/-- True when the second list occurs contiguously inside the first. -/
def charsContain : List Char → List Char → Bool
  | [], sub => sub.isEmpty
  | c :: cs, sub => charsStartWith (c :: cs) sub || charsContain cs sub

/-- True when sub occurs as a contiguous substring of s, modelling
JavaScript String.prototype.includes. -/
def strContains (s sub : String) : Bool :=
  charsContain s.toList sub.toList

/-- Error classification of the catch block (lines 1455-1466): API-key,
deadline (case-insensitive) and safety failures map to specific friendly
texts, everything else to the generic text. -/
def classify (e : GenError) : String :=
  if strContains e.message "API key not valid" then
    "Há um problema com a configuração da API. Por favor, contate o administrador."
  else if strContains (jsToLower e.message) "deadline" then
    "A solicitação demorou muito e expirou. Tente novamente com uma pergunta mais curta ou verifique sua conexão de rede."
  else if strContains e.message "SAFETY" then
    "A resposta foi bloqueada devido às configurações de segurança. Por favor, modifique sua pergunta e tente novamente."
  else
    "Desculpe, algo deu errado ao gerar a resposta."

/-- Join of a fan-out (Promise.all): all results are demanded; if any call
rejected the join rejects (the model returns the leftmost rejection, a
deterministic stand-in for the first rejection in time). -/
def seqExcept : List (Except GenError String) → Except GenError (List String)
  | [] => .ok []
  | (.ok s) :: rest =>
    match seqExcept rest with
    | .ok l => .ok (s :: l)
    | .error e => .error e
  | (.error e) :: _ => .error e

/-- Boolean success test for a gateway result. -/
def exOk : Except GenError String → Bool
  | .ok _ => true
  | .error _ => false

/-- Outcome of one executeGeneration run: the gateway calls issued in issue
order, the messages appended to the conversation, the value of
finalResponseText after the try/catch, and whether the finally block's
enrichment guard if (finalResponseText) passed (memory extraction is
additionally gated by the long-term-memory toggle; suggestion generation is
not). -/
structure RunResult where
  trace : List CallKind
  messages : List Message
  finalResponseText : String
  enrichmentRan : Bool
deriving DecidableEq

/-- The single error message appended by the catch block (lines 1468-1475):
role model, the classified friendly text, isError true, no details. -/
def errorMessage (e : GenError) : Message :=
  { role := .model, parts := [.text (classify e)], isError := true }

/-- Run outcome of the catch path: only the error message is appended,
finalResponseText is cleared, so enrichment does not run. -/
def errorResult (tr : List CallKind) (e : GenError) : RunResult :=
  { trace := tr, messages := [errorMessage e], finalResponseText := "", enrichmentRan := false }

/-- Run outcome of a completed pipeline: one model message carrying the
final text and the generation details is appended. -/
def successResult (tr : List CallKind) (txt : String)
    (details : Option GenerationDetails) : RunResult :=
  { trace := tr,
    messages := [{ role := .model, parts := [.text txt], generationDetails := details }],
    finalResponseText := txt,
    enrichmentRan := txt != "" }

/-- Fan-out width, source line 1361: generationDepth === deep ? 4 : 2. -/
def numAgents (depth : GenerationDepth) : Nat :=
  if depth == .deep then 4 else 2

/-- The initial-draft calls issued by the first fan-out, in array order. -/
def initialCallList (n : Nat) : List CallKind :=
  (List.range n).map CallKind.initial

/-- The refinement calls issued by the second fan-out, one per initial
draft, in array order. -/
def refineCallList (n : Nat) : List CallKind :=
  (List.range n).map CallKind.refine

/-- Self-correction step (lines 1409-1440): one critique call; if its text,
trimmed and uppercased, differs from PERFECT, one further synthesis call is
issued and its text replaces the final text; otherwise the provisional
final text stands. -/
def critiquePhase (gw : Gateway) (tr : List CallKind) (inits refs : List String)
    (synthText : String) : RunResult :=
  match gw .critique with
  | .error e => errorResult (tr ++ [.critique]) e
  | .ok critText =>
    if jsToUpper (jsTrim critText) != "PERFECT" then
      match gw .resynthesis with
      | .error e => errorResult (tr ++ [.critique, .resynthesis]) e
      | .ok improved =>
        successResult (tr ++ [.critique, .resynthesis]) improved (some ⟨inits, refs⟩)
    else
      successResult (tr ++ [.critique]) synthText (some ⟨inits, refs⟩)

/-- Synthesis step (lines 1387-1407) followed, when self-correction is
enabled, by the critique step. -/
def synthesisPhase (cfg : Config) (gw : Gateway) (tr : List CallKind)
    (inits refs : List String) : RunResult :=
  match gw .synthesis with
  | .error e => errorResult (tr ++ [.synthesis]) e
  | .ok synthText =>
    if cfg.isSelfCorrectionEnabled then
      critiquePhase gw (tr ++ [.synthesis]) inits refs synthText
    else
      successResult (tr ++ [.synthesis]) synthText (some ⟨inits, refs⟩)

/-- Refinement fan-out (lines 1375-1384): one call per initial draft, all
issued, joined by Promise.all; on success their texts become the refined
drafts. -/
def refinePhase (cfg : Config) (gw : Gateway) (tr : List CallKind)
    (inits : List String) : RunResult :=
  match seqExcept ((List.range inits.length).map (fun i => gw (.refine i))) with
  | .error e => errorResult (tr ++ refineCallList inits.length) e
  | .ok refs => synthesisPhase cfg gw (tr ++ refineCallList inits.length) inits refs

/-- Initial-draft fan-out (lines 1361-1372): numAgents parallel calls, all
issued, joined by Promise.all; the refinement stage runs only if every one
of them resolved. -/
def draftPhase (cfg : Config) (gw : Gateway) (tr : List CallKind) : RunResult :=
  match seqExcept ((List.range (numAgents cfg.generationDepth)).map
      (fun i => gw (.initial i))) with
  | .error e => errorResult (tr ++ initialCallList (numAgents cfg.generationDepth)) e
  | .ok inits => refinePhase cfg gw (tr ++ initialCallList (numAgents cfg.generationDepth)) inits

/-- The balanced/deep branch of executeGeneration (lines 1334-1453): the
history-processing placeholder performs no call; a web-search call runs
first when the research mode is web or deep; then the two fan-outs, the
synthesis and the optional self-correction. -/
def runMulti (cfg : Config) (gw : Gateway) : RunResult :=
  if cfg.researchMode == .web || cfg.researchMode == .deep then
    match gw .search with
    | .error e => errorResult [.search] e
    | .ok _ => draftPhase cfg gw [.search]
  else
    draftPhase cfg gw []

/-- The fast branch of executeGeneration (lines 1298-1332): one gateway
call whose text becomes the message directly, with no generation details. -/
def runFast (gw : Gateway) : RunResult :=
  match gw .fastGen with
  | .error e => errorResult [.fastGen] e
  | .ok t => successResult [.fastGen] t none

/-- Source function executeGeneration (lines 1224-1485), reduced to its
call/observable behaviour: the fast branch for depth = fast, the
multi-stage branch otherwise; any rejection is caught, appends exactly the
classified error message and clears finalResponseText, which suppresses
the enrichment of the finally block. -/
def executeGeneration (cfg : Config) (gw : Gateway) : RunResult :=
  if cfg.generationDepth == .fast then runFast gw else runMulti cfg gw

/-- The Search Gate condition of handleSubmit (line 1543):
researchMode === web && generationDepth !== fast. -/
def engagesSearchGate (mode : ResearchMode) (depth : GenerationDepth) : Bool :=
  mode == .web && depth != .fast

/-- Where a submission goes after the user message is appended. -/
inductive SubmitRoute
  | searchGate
  | direct
deriving DecidableEq

/-- Routing of handleSubmit (lines 1543-1592): when the Search Gate
condition holds the run pauses for confirmation and returns; otherwise
executeGeneration is invoked immediately with confirmedSearchQuery null. -/
def submitRoute (mode : ResearchMode) (depth : GenerationDepth) : SubmitRoute :=
  if engagesSearchGate mode depth then .searchGate else .direct

/-- A history entry sent to the gateway, source Content (role + parts). -/
structure HContent where
  role : Role
  parts : List MsgPart
deriving DecidableEq

/-- Source constant MAX_HISTORY_MESSAGES (line 1513). -/
def MAX_HISTORY_MESSAGES : Nat := 10

/-- The part filter of handleSubmit (lines 1518-1520): keep only text parts
whose trimmed text is non-empty. -/
def keepTextPart : MsgPart → Bool
  | .text s => jsTrim s != ""
  | .inlineData _ _ => false

/-- History construction of handleSubmit (lines 1513-1522):
messages.slice(-10), then each message reduced to its kept text parts, then
messages left with no parts dropped.  slice(-10) takes the last
min(10, length) elements, which is drop (length - 10) with truncated
subtraction. -/
def buildHistory (msgs : List Message) : List HContent :=
  ((msgs.drop (msgs.length - MAX_HISTORY_MESSAGES)).map
      (fun m => HContent.mk m.role (m.parts.filter keepTextPart))).filter
    (fun c => c.parts.length != 0)

/-- The pending Search Gate confirmation, source interface
SearchConfirmationData (lines 57-63). -/
structure SearchConfirmationData where
  originalUserInput : String
  searchQuery : String
  questions : List String
  attachedFileParts : List MsgPart
  history : List HContent
deriving DecidableEq

/-- The application state touched by the Search Gate handlers. -/
structure AppState where
  messages : List Message
  isLoading : Bool
  showSearchConfirmation : Bool
  searchConfirmationData : Option SearchConfirmationData
deriving DecidableEq

/-- Source function handleSearchCancel (lines 1218-1222): hide the modal,
drop the pending confirmation, stop loading.  The second component lists
the gateway calls the handler issues: there are none, and the handler never
touches the conversation messages. -/
def handleSearchCancel (s : AppState) : AppState × List CallKind :=
  ({ s with showSearchConfirmation := false, searchConfirmationData := none, isLoading := false },
   [])

/-! ### Helper lemmas -/

lemma updateTaskStatusAux_length (idx : Nat) (st : TaskStatus) (c : Nat)
    (ts : List LoadingTask) :
    (updateTaskStatusAux idx st c ts).length = ts.length := by
  induction ts generalizing c with
  | nil => rfl
  | cons t ts ih => simp [updateTaskStatusAux, ih]

lemma updateTaskStatusAux_get (idx : Nat) (st : TaskStatus) (c : Nat)
    (ts : List LoadingTask) (j : Nat) (h : j < (updateTaskStatusAux idx st c ts).length) :
    (updateTaskStatusAux idx st c ts).get ⟨j, h⟩ =
      setTaskStatus idx st (c + j)
        (ts.get ⟨j, by rw [← updateTaskStatusAux_length idx st c ts]; exact h⟩) := by
  induction ts generalizing c j with
  | nil => exact absurd h (by simp [updateTaskStatusAux])
  | cons t ts ih =>
    cases j with
    | zero => simp [updateTaskStatusAux]
    | succ j =>
      have h2 : j < (updateTaskStatusAux idx st (c + 1) ts).length := by
        simpa [updateTaskStatusAux] using h
      have hrec := ih (c + 1) j h2
      simp only [updateTaskStatusAux, List.get_cons_succ]
      rw [hrec]
      congr 1
      omega

lemma setTaskStatus_twice (idx : Nat) (st : TaskStatus) (i : Nat) (t : LoadingTask) :
    setTaskStatus idx st i (setTaskStatus idx st i t) = setTaskStatus idx st i t := by
  by_cases h1 : i < idx <;> by_cases h2 : (i == idx) = true <;>
    simp [setTaskStatus, h1, h2]

lemma updateTaskStatusAux_twice (idx : Nat) (st : TaskStatus) (c : Nat)
    (ts : List LoadingTask) :
    updateTaskStatusAux idx st c (updateTaskStatusAux idx st c ts) =
      updateTaskStatusAux idx st c ts := by
  induction ts generalizing c with
  | nil => rfl
  | cons t ts ih => simp [updateTaskStatusAux, setTaskStatus_twice, ih]

/-! ### C5 -/

/-- C5: the claim says the progress ratio is defined as 0 whenever the
stage count is at most 1 and never divides by zero.  The source guard is
tasks.length > 0 rather than > 1, so for every single-stage list (the
fast-depth run) the code computes completedCount / 0, a non-finite
JavaScript number; the empty list and lists of two or more stages behave
as the claim says (three stages with one completed give 50 percent,
ratio 0.5). -/
theorem progressPercentage_single_stage_divides_by_zero :
    progressPercentage [{ name := "Gerando resposta...", status := .completed }] = none ∧
    progressPercentage [{ name := "Gerando resposta...", status := .pending }] = none ∧
    progressPercentage [{ name := "a", status := .completed },
      { name := "b", status := .active }, { name := "c", status := .pending }] = some 50 ∧
    progressPercentage [] = some 0 := by
  have hc : completedCount [{ name := "a", status := .completed },
      { name := "b", status := .active }, { name := "c", status := .pending }] = 1 := rfl
  refine ⟨?_, ?_, ?_, rfl⟩
  · norm_num [progressPercentage, completedCount, jsDiv]
  · norm_num [progressPercentage, completedCount, jsDiv]
  · norm_num [progressPercentage, hc, jsDiv]

/-! ### C6 -/

/-- The stage lists the specification prescribes, written as explicit
tables: depth fast always a single stage; otherwise the fixed ordered
template of the research mode (offline omits the search stage, web and
deep include it), with the critique stage removed exactly when
self-correction is disabled. -/
def specStageList (mode : ResearchMode) (depth : GenerationDepth)
    (selfCorrectionEnabled : Bool) : List LoadingTask :=
  if depth = .fast then [FAST_TASK]
  else
    match mode, selfCorrectionEnabled with
    | .offline, true =>
        [HISTORY_PROCESSING_TASK, BRAINSTORMING_TASK, REFINING_TASK,
         SYNTHESIZING_TASK, CRITIC_TASK]
    | .offline, false =>
        [HISTORY_PROCESSING_TASK, BRAINSTORMING_TASK, REFINING_TASK, SYNTHESIZING_TASK]
    | .web, true =>
        [HISTORY_PROCESSING_TASK, SEARCHING_TASK, BRAINSTORMING_TASK, REFINING_TASK,
         SYNTHESIZING_TASK, CRITIC_TASK]
    | .web, false =>
        [HISTORY_PROCESSING_TASK, SEARCHING_TASK, BRAINSTORMING_TASK, REFINING_TASK,
         SYNTHESIZING_TASK]
    | .deep, true =>
        [HISTORY_PROCESSING_TASK, SEARCHING_TASK, BRAINSTORMING_TASK, REFINING_TASK,
         SYNTHESIZING_TASK, CRITIC_TASK]
    | .deep, false =>
        [HISTORY_PROCESSING_TASK, SEARCHING_TASK, BRAINSTORMING_TASK, REFINING_TASK,
         SYNTHESIZING_TASK] 

/-- C6: for every combination of research mode, generation depth and
self-correction flag, the stage list built by executeGeneration is a
single stage when depth is fast, and otherwise the fixed ordered template
of the mode (offline without the search stage, web and deep with it) with
the critique stage removed exactly when self-correction is disabled; the
order is never changed.  Proved by full enumeration of the 18 settings
against the explicit tables of specStageList. -/
theorem buildTasks_matches_spec_template :
    ∀ (mode : ResearchMode) (depth : GenerationDepth) (sc : Bool),
      buildTasks mode depth sc = specStageList mode depth sc := by
  intro mode depth sc
  cases mode <;> cases depth <;> cases sc <;> rfl

/-! ### C7 -/

/-- C7: for every in-range index i, advancing the stage tracker to i sets
stage i active, every earlier stage completed and every later stage
pending, and the operation is idempotent: advancing twice gives the same
list as advancing once. -/
theorem advance_sets_statuses_and_is_idempotent :
    ∀ (tasks : List LoadingTask) (i : Nat), i < tasks.length →
      ((∀ j, (hj : j < (advance i tasks).length) →
          ((advance i tasks).get ⟨j, hj⟩).status =
            (if j < i then .completed else if j = i then .active else .pending)) ∧
        advance i (advance i tasks) = advance i tasks) := by
  intro tasks i _hi
  constructor
  · intro j hj
    show ((updateTaskStatusAux i .active 0 tasks).get ⟨j, hj⟩).status = _
    rw [updateTaskStatusAux_get]
    simp only [setTaskStatus, Nat.zero_add]
    by_cases h1 : j < i <;> by_cases h2 : j = i <;> simp [h1, h2]
  · exact updateTaskStatusAux_twice i .active 0 tasks

/-- Witness for C7 at a concrete three-stage list and index 1. -/
theorem advance_sets_statuses_and_is_idempotent_witness :
    ((advance 1 [FAST_TASK, FAST_TASK, FAST_TASK]).get ⟨2, by decide⟩).status = .pending ∧
    advance 1 (advance 1 [FAST_TASK, FAST_TASK, FAST_TASK]) =
      advance 1 [FAST_TASK, FAST_TASK, FAST_TASK] := by
  have h := advance_sets_statuses_and_is_idempotent [FAST_TASK, FAST_TASK, FAST_TASK] 1
    (by decide)
  exact ⟨by simpa using h.1 2 (by decide), h.2⟩

/-! ### C8 -/

/-- Twenty distinct stored memories, each longer than ten characters. -/
def twentyMemories : List String :=
  (List.range 20).map (fun i => "memoria numero " ++ toString i)

/-- C8 counterexample: the claim says the long-term memory list never
exceeds 20 entries, but the manual-add path of the memory management modal
prepends without a cap: adding one more entry to a 20-entry list yields 21
entries. -/
theorem manualAddMemory_exceeds_cap :
    twentyMemories.length = 20 ∧
    (manualAddMemory "O usuario prefere respostas curtas e objetivas" twentyMemories).length
      = 21 := by
  exact ⟨rfl, rfl⟩

/-- C8 (amended): a memory candidate produced by memory extraction is
trimmed; it is never added when its trimmed length is at most 10; otherwise
it is inserted at the front with exact-text deduplication and the result is
truncated to 20 entries, so the extraction path never leaves more than
max(previous length, 20) entries.  (The manual-add path is uncapped, see
the counterexample.) -/
theorem storeMemory_admission (responseText : String) (prev : List String) :
    ((jsTrim responseText).length ≤ 10 → storeMemory responseText prev = prev) ∧
    ((jsTrim responseText).length > 10 →
      storeMemory responseText prev =
        ((jsTrim responseText) :: prev.filter (fun m => m != (jsTrim responseText))).take 20) ∧
    (storeMemory responseText prev).length ≤ max prev.length 20 := by
  refine ⟨?_, ?_, ?_⟩
  · intro h
    have hfalse : (decide ((jsTrim responseText).length > 10)) = false := by
      simp; omega
    simp [storeMemory, hfalse]
  · intro h
    have hne : ((jsTrim responseText) != "") = true := by
      have : (jsTrim responseText) ≠ "" := by
        intro habs
        rw [habs] at h
        simp at h
      simpa using this
    have htrue : (decide ((jsTrim responseText).length > 10)) = true := by simpa using h
    simp [storeMemory, hne, htrue]
  · by_cases hcond :
      ((jsTrim responseText) != "" && decide ((jsTrim responseText).length > 10)) = true
    · have : storeMemory responseText prev =
          ((jsTrim responseText) :: prev.filter (fun m => m != (jsTrim responseText))).take 20 := by
        simp [storeMemory, hcond]
      rw [this]
      calc (((jsTrim responseText) :: prev.filter (fun m => m != (jsTrim responseText))).take 20).length
          ≤ 20 := by simp
        _ ≤ max prev.length 20 := Nat.le_max_right _ _
    · have : storeMemory responseText prev = prev := by
        simp [storeMemory]
        intro h1 h2
        exact absurd (by simp [h1, h2] : ((jsTrim responseText) != "" &&
          decide ((jsTrim responseText).length > 10)) = true) hcond
      rw [this]
      exact Nat.le_max_left _ _

/-- Witness for C8 (amended) at a concrete candidate and a list that
already contains the trimmed candidate in second position: the entry moves
to the front and is not duplicated. -/
theorem storeMemory_admission_witness :
    storeMemory "  O usuario e engenheiro de software  "
        ["outra memoria", "O usuario e engenheiro de software"] =
      ["O usuario e engenheiro de software", "outra memoria"] := by
  have h := (storeMemory_admission "  O usuario e engenheiro de software  "
    ["outra memoria", "O usuario e engenheiro de software"]).2.1 (by decide)
  exact h.trans (by decide)

/-! ### C9 -/

/-- C9: cancelling the Search Gate confirmation is a silent no-op return
to idle: the conversation messages are untouched (no model message, no
error message), loading stops, the pending confirmation is discarded, and
no gateway call is issued. -/
theorem handleSearchCancel_is_silent :
    ∀ (s : AppState),
      (handleSearchCancel s).1.messages = s.messages ∧
      (handleSearchCancel s).1.isLoading = false ∧
      (handleSearchCancel s).1.showSearchConfirmation = false ∧
      (handleSearchCancel s).1.searchConfirmationData = none ∧
      (handleSearchCancel s).2 = [] :=
  fun _ => ⟨rfl, rfl, rfl, rfl, rfl⟩

/-! ### C10 -/

/-- C10: the history passed to the generation pipeline has at most 10
entries, every entry consists only of kept text parts (non-empty after
trimming; attachment parts are removed) and is itself non-empty, and the
history depends only on the last 10 messages of the conversation. -/
theorem buildHistory_truncates_and_filters :
    ∀ (msgs : List Message),
      (buildHistory msgs).length ≤ MAX_HISTORY_MESSAGES ∧
      (buildHistory msgs).all
        (fun c => c.parts.length != 0 && c.parts.all keepTextPart) = true ∧
      buildHistory msgs = buildHistory (msgs.drop (msgs.length - MAX_HISTORY_MESSAGES)) := by
  intro msgs
  refine ⟨?_, ?_, ?_⟩
  · calc (buildHistory msgs).length
        ≤ ((msgs.drop (msgs.length - MAX_HISTORY_MESSAGES)).map
            (fun m => HContent.mk m.role (m.parts.filter keepTextPart))).length :=
          List.length_filter_le _ _
      _ ≤ MAX_HISTORY_MESSAGES := by
          simp [List.length_drop]
          omega
  · rw [List.all_eq_true]
    intro c hc
    rw [buildHistory, List.mem_filter] at hc
    obtain ⟨hmem, hlen⟩ := hc
    obtain ⟨m, _hm, rfl⟩ := List.mem_map.mp hmem
    rw [Bool.and_eq_true]
    refine ⟨hlen, ?_⟩
    rw [List.all_eq_true]
    intro p hp
    exact (List.mem_filter.mp hp).2
  · have hlen : (msgs.drop (msgs.length - MAX_HISTORY_MESSAGES)).length
        - MAX_HISTORY_MESSAGES = 0 := by
      simp [List.length_drop]
      omega
    rw [buildHistory, buildHistory, hlen, List.drop_zero]

/-! ### Pipeline helper definitions and lemmas -/

/-- Recogniser of initial-draft calls. -/
def isInitialCall : CallKind → Bool
  | .initial _ => true
  | _ => false

/-- Recogniser of refinement calls. -/
def isRefineCall : CallKind → Bool
  | .refine _ => true
  | _ => false

/-- Recogniser of the conditional second synthesis call. -/
def isResynthesisCall : CallKind → Bool
  | .resynthesis => true
  | _ => false

/-- Recogniser of critique calls. -/
def isCritiqueCall : CallKind → Bool
  | .critique => true
  | _ => false

lemma countP_map_of_true {α : Type} (f : α → CallKind) (p : CallKind → Bool)
    (h : ∀ a, p (f a) = true) (l : List α) : (l.map f).countP p = l.length := by
  induction l with
  | nil => rfl
  | cons a l ih => simp [List.countP_cons, h, ih]

lemma countP_map_of_false {α : Type} (f : α → CallKind) (p : CallKind → Bool)
    (h : ∀ a, p (f a) = false) (l : List α) : (l.map f).countP p = 0 := by
  induction l with
  | nil => rfl
  | cons a l ih => simp [List.countP_cons, h, ih]

lemma initialCallList_countP_initial (n : Nat) :
    (initialCallList n).countP isInitialCall = n := by
  rw [initialCallList, countP_map_of_true CallKind.initial isInitialCall (fun _ => rfl)]
  exact List.length_range n

lemma initialCallList_countP_of_false (p : CallKind → Bool)
    (h : ∀ i, p (.initial i) = false) (n : Nat) :
    (initialCallList n).countP p = 0 :=
  countP_map_of_false CallKind.initial p h (List.range n)

lemma refineCallList_countP_refine (n : Nat) :
    (refineCallList n).countP isRefineCall = n := by
  rw [refineCallList, countP_map_of_true CallKind.refine isRefineCall (fun _ => rfl)]
  exact List.length_range n

lemma refineCallList_countP_of_false (p : CallKind → Bool)
    (h : ∀ i, p (.refine i) = false) (n : Nat) :
    (refineCallList n).countP p = 0 :=
  countP_map_of_false CallKind.refine p h (List.range n)

lemma seqExcept_ok_length {rs : List (Except GenError String)} {l : List String}
    (h : seqExcept rs = .ok l) : l.length = rs.length := by
  induction rs generalizing l with
  | nil =>
    simp only [seqExcept] at h
    cases h
    rfl
  | cons r rs ih =>
    cases r with
    | error e => simp [seqExcept] at h
    | ok s =>
      simp only [seqExcept] at h
      cases hr : seqExcept rs with
      | error e => rw [hr] at h; cases h
      | ok l2 =>
        rw [hr] at h
        cases h
        simp [ih hr]

lemma seqExcept_ok_of_all_ok {rs : List (Except GenError String)}
    (h : ∀ r ∈ rs, exOk r = true) :
    ∃ l, seqExcept rs = .ok l ∧ l.length = rs.length := by
  induction rs with
  | nil => exact ⟨[], rfl, rfl⟩
  | cons r rs ih =>
    obtain ⟨l, hl, hlen⟩ := ih (fun r hr => h r (List.mem_cons_of_mem _ hr))
    cases r with
    | error e => exact absurd (h _ (List.mem_cons_self _ _)) (by simp [exOk])
    | ok s => exact ⟨s :: l, by simp [seqExcept, hl], by simp [hlen]⟩

lemma seqExcept_error_of_mem_fail {rs : List (Except GenError String)}
    (h : ∃ r ∈ rs, exOk r = false) :
    ∃ e, seqExcept rs = .error e := by
  induction rs with
  | nil => simp at h
  | cons r rs ih =>
    cases r with
    | error e => exact ⟨e, rfl⟩
    | ok s =>
      obtain ⟨r0, hr0, hfail⟩ := h
      rcases List.mem_cons.mp hr0 with rfl | hmem
      · simp [exOk] at hfail
      · obtain ⟨e, he⟩ := ih ⟨r0, hmem, hfail⟩
        exact ⟨e, by simp [seqExcept, he]⟩

lemma critiquePhase_trace (gw : Gateway) (tr : List CallKind) (inits refs : List String)
    (synthText : String) :
    ∃ ext, (critiquePhase gw tr inits refs synthText).trace = tr ++ ext ∧
      ∀ k ∈ ext, k = CallKind.critique ∨ k = CallKind.resynthesis := by
  cases hc : gw .critique with
  | error e =>
    refine ⟨[.critique], ?_, by simp⟩
    simp [critiquePhase, hc, errorResult]
  | ok critText =>
    by_cases h : (jsToUpper (jsTrim critText) != "PERFECT") = true
    · cases hr : gw .resynthesis with
      | error e =>
        refine ⟨[.critique, .resynthesis], ?_, by simp⟩
        simp [critiquePhase, hc, h, hr, errorResult]
      | ok improved =>
        refine ⟨[.critique, .resynthesis], ?_, by simp⟩
        simp [critiquePhase, hc, h, hr, successResult]
    · refine ⟨[.critique], ?_, by simp⟩
      simp [critiquePhase, hc, h, successResult]

lemma synthesisPhase_trace (cfg : Config) (gw : Gateway) (tr : List CallKind)
    (inits refs : List String) :
    ∃ ext, (synthesisPhase cfg gw tr inits refs).trace = tr ++ ext ∧
      ∀ k ∈ ext, k = CallKind.synthesis ∨ k = CallKind.critique ∨ k = CallKind.resynthesis := by
  cases hsy : gw .synthesis with
  | error e =>
    refine ⟨[.synthesis], ?_, by simp⟩
    simp [synthesisPhase, hsy, errorResult]
  | ok synthText =>
    by_cases h : cfg.isSelfCorrectionEnabled = true
    · have heq : synthesisPhase cfg gw tr inits refs =
          critiquePhase gw (tr ++ [.synthesis]) inits refs synthText := by
        simp [synthesisPhase, hsy, h]
      obtain ⟨ext, hext, hmem⟩ := critiquePhase_trace gw (tr ++ [.synthesis]) inits refs synthText
      refine ⟨[.synthesis] ++ ext, by rw [heq, hext, List.append_assoc], ?_⟩
      intro k hk
      rcases List.mem_append.mp hk with hk | hk
      · simp at hk; simp [hk]
      · rcases hmem k hk with h1 | h1 <;> simp [h1]
    · refine ⟨[.synthesis], ?_, by simp⟩
      simp [synthesisPhase, hsy, h, successResult]

lemma refinePhase_trace (cfg : Config) (gw : Gateway) (tr : List CallKind)
    (inits : List String) :
    ∃ ext, (refinePhase cfg gw tr inits).trace = (tr ++ refineCallList inits.length) ++ ext ∧
      ∀ k ∈ ext, k = CallKind.synthesis ∨ k = CallKind.critique ∨ k = CallKind.resynthesis := by
  cases hs : seqExcept ((List.range inits.length).map (fun i => gw (.refine i))) with
  | error e =>
    refine ⟨[], ?_, by simp⟩
    simp [refinePhase, hs, errorResult]
  | ok refs =>
    have heq : refinePhase cfg gw tr inits =
        synthesisPhase cfg gw (tr ++ refineCallList inits.length) inits refs := by
      simp [refinePhase, hs]
    obtain ⟨ext, hext, hmem⟩ :=
      synthesisPhase_trace cfg gw (tr ++ refineCallList inits.length) inits refs
    exact ⟨ext, by rw [heq, hext], hmem⟩

lemma draftPhase_trace (cfg : Config) (gw : Gateway) (tr : List CallKind) :
    ∃ ext, (draftPhase cfg gw tr).trace =
        (tr ++ initialCallList (numAgents cfg.generationDepth)) ++ ext ∧
      ∀ k ∈ ext, (∃ i, k = CallKind.refine i) ∨ k = CallKind.synthesis ∨
        k = CallKind.critique ∨ k = CallKind.resynthesis := by
  cases hs : seqExcept ((List.range (numAgents cfg.generationDepth)).map
      (fun i => gw (.initial i))) with
  | error e =>
    refine ⟨[], ?_, by simp⟩
    simp [draftPhase, hs, errorResult]
  | ok inits =>
    have heq : draftPhase cfg gw tr =
        refinePhase cfg gw (tr ++ initialCallList (numAgents cfg.generationDepth)) inits := by
      simp [draftPhase, hs]
    obtain ⟨ext, hext, hmem⟩ :=
      refinePhase_trace cfg gw (tr ++ initialCallList (numAgents cfg.generationDepth)) inits
    refine ⟨refineCallList inits.length ++ ext, by rw [heq, hext, List.append_assoc], ?_⟩
    intro k hk
    rcases List.mem_append.mp hk with hk | hk
    · obtain ⟨i, _, rfl⟩ := List.mem_map.mp hk
      exact Or.inl ⟨i, rfl⟩
    · rcases hmem k hk with h1 | h1 | h1 <;> simp [h1]

lemma executeGeneration_eq_runMulti (cfg : Config) (gw : Gateway)
    (hdepth : cfg.generationDepth ≠ .fast) :
    executeGeneration cfg gw = runMulti cfg gw := by
  have h : (cfg.generationDepth == GenerationDepth.fast) = false := by
    cases hd : cfg.generationDepth <;> simp_all
  simp [executeGeneration, h]

lemma runMulti_eq_draftPhase (cfg : Config) (gw : Gateway)
    (hsearch : (cfg.researchMode = .web ∨ cfg.researchMode = .deep) → exOk (gw .search) = true) :
    ∃ tr₀ : List CallKind,
      runMulti cfg gw = draftPhase cfg gw tr₀ ∧
      (∀ k ∈ tr₀, k = CallKind.search) := by
  cases hmode : cfg.researchMode with
  | offline => exact ⟨[], by simp [runMulti, hmode], by simp⟩
  | web =>
    have hok := hsearch (Or.inl hmode)
    cases hgw : gw .search with
    | error e => rw [hgw] at hok; simp [exOk] at hok
    | ok s => exact ⟨[.search], by simp [runMulti, hmode, hgw], by simp⟩
  | deep =>
    have hok := hsearch (Or.inr hmode)
    cases hgw : gw .search with
    | error e => rw [hgw] at hok; simp [exOk] at hok
    | ok s => exact ⟨[.search], by simp [runMulti, hmode, hgw], by simp⟩

lemma draftPhase_success (cfg : Config) (gw : Gateway) (tr : List CallKind)
    (hinit : ∀ i, i < numAgents cfg.generationDepth → exOk (gw (.initial i)) = true) :
    ∃ inits : List String, inits.length = numAgents cfg.generationDepth ∧
      draftPhase cfg gw tr =
        refinePhase cfg gw (tr ++ initialCallList (numAgents cfg.generationDepth)) inits := by
  have hall : ∀ r ∈ (List.range (numAgents cfg.generationDepth)).map
      (fun i => gw (.initial i)), exOk r = true := by
    intro r hr
    obtain ⟨i, hi, rfl⟩ := List.mem_map.mp hr
    exact hinit i (List.mem_range.mp hi)
  obtain ⟨inits, hseq, hlen⟩ := seqExcept_ok_of_all_ok hall
  refine ⟨inits, by simpa using hlen, ?_⟩
  simp [draftPhase, hseq]

lemma refinePhase_success (cfg : Config) (gw : Gateway) (tr : List CallKind)
    (inits : List String)
    (href : ∀ i, i < inits.length → exOk (gw (.refine i)) = true) :
    ∃ refs : List String, refs.length = inits.length ∧
      refinePhase cfg gw tr inits =
        synthesisPhase cfg gw (tr ++ refineCallList inits.length) inits refs := by
  have hall : ∀ r ∈ (List.range inits.length).map (fun i => gw (.refine i)),
      exOk r = true := by
    intro r hr
    obtain ⟨i, hi, rfl⟩ := List.mem_map.mp hr
    exact href i (List.mem_range.mp hi)
  obtain ⟨refs, hseq, hlen⟩ := seqExcept_ok_of_all_ok hall
  refine ⟨refs, by simpa using hlen, ?_⟩
  simp [refinePhase, hseq]

lemma critiquePhase_details (gw : Gateway) (tr : List CallKind) (inits refs : List String)
    (st : String) :
    ∀ m ∈ (critiquePhase gw tr inits refs st).messages, m.isError = false →
      m.generationDetails = some ⟨inits, refs⟩ := by
  intro m hm hne
  cases hc : gw .critique with
  | error e =>
    have hmm : m = errorMessage e := by
      simpa [critiquePhase, hc, errorResult] using hm
    rw [hmm] at hne
    simp [errorMessage] at hne
  | ok critText =>
    by_cases h : (jsToUpper (jsTrim critText) != "PERFECT") = true
    · cases hr : gw .resynthesis with
      | error e =>
        have hmm : m = errorMessage e := by
          simpa [critiquePhase, hc, h, hr, errorResult] using hm
        rw [hmm] at hne
        simp [errorMessage] at hne
      | ok improved =>
        have hmm : m =
            { role := .model, parts := [.text improved],
              generationDetails := some ⟨inits, refs⟩ } := by
          simpa [critiquePhase, hc, h, hr, successResult] using hm
        rw [hmm]
    · have hmm : m =
          { role := .model, parts := [.text st],
            generationDetails := some ⟨inits, refs⟩ } := by
        simpa [critiquePhase, hc, h, successResult] using hm
      rw [hmm]

lemma synthesisPhase_details (cfg : Config) (gw : Gateway) (tr : List CallKind)
    (inits refs : List String) :
    ∀ m ∈ (synthesisPhase cfg gw tr inits refs).messages, m.isError = false →
      m.generationDetails = some ⟨inits, refs⟩ := by
  intro m hm hne
  cases hsy : gw .synthesis with
  | error e =>
    have hmm : m = errorMessage e := by
      simpa [synthesisPhase, hsy, errorResult] using hm
    rw [hmm] at hne
    simp [errorMessage] at hne
  | ok synthText =>
    by_cases h : cfg.isSelfCorrectionEnabled = true
    · have heq : synthesisPhase cfg gw tr inits refs =
          critiquePhase gw (tr ++ [.synthesis]) inits refs synthText := by
        simp [synthesisPhase, hsy, h]
      rw [heq] at hm
      exact critiquePhase_details gw _ inits refs synthText m hm hne
    · have hmm : m =
          { role := .model, parts := [.text synthText],
            generationDetails := some ⟨inits, refs⟩ } := by
        simpa [synthesisPhase, hsy, h, successResult] using hm
      rw [hmm]

lemma refinePhase_details (cfg : Config) (gw : Gateway) (tr : List CallKind)
    (inits : List String) :
    ∀ m ∈ (refinePhase cfg gw tr inits).messages, m.isError = false →
      ∃ refs : List String, refs.length = inits.length ∧
        m.generationDetails = some ⟨inits, refs⟩ := by
  intro m hm hne
  cases hs : seqExcept ((List.range inits.length).map (fun i => gw (.refine i))) with
  | error e =>
    have hmm : m = errorMessage e := by
      simpa [refinePhase, hs, errorResult] using hm
    rw [hmm] at hne
    simp [errorMessage] at hne
  | ok refs =>
    have hlen : refs.length = inits.length := by
      simpa using seqExcept_ok_length hs
    have heq : refinePhase cfg gw tr inits =
        synthesisPhase cfg gw (tr ++ refineCallList inits.length) inits refs := by
      simp [refinePhase, hs]
    rw [heq] at hm
    exact ⟨refs, hlen, synthesisPhase_details cfg gw _ inits refs m hm hne⟩

lemma draftPhase_details (cfg : Config) (gw : Gateway) (tr : List CallKind) :
    ∀ m ∈ (draftPhase cfg gw tr).messages, m.isError = false →
      ∃ d : GenerationDetails, m.generationDetails = some d ∧
        d.initial.length = numAgents cfg.generationDepth ∧
        d.refined.length = numAgents cfg.generationDepth := by
  intro m hm hne
  cases hs : seqExcept ((List.range (numAgents cfg.generationDepth)).map
      (fun i => gw (.initial i))) with
  | error e =>
    have hmm : m = errorMessage e := by
      simpa [draftPhase, hs, errorResult] using hm
    rw [hmm] at hne
    simp [errorMessage] at hne
  | ok inits =>
    have hlen : inits.length = numAgents cfg.generationDepth := by
      simpa using seqExcept_ok_length hs
    have heq : draftPhase cfg gw tr =
        refinePhase cfg gw (tr ++ initialCallList (numAgents cfg.generationDepth)) inits := by
      simp [draftPhase, hs]
    rw [heq] at hm
    obtain ⟨refs, hrlen, hd⟩ := refinePhase_details cfg gw _ inits m hm hne
    exact ⟨⟨inits, refs⟩, hd, hlen, by rw [hrlen, hlen]⟩

/-- A run that was aborted by the catch block: exactly one classified
error message, cleared final text, no enrichment. -/
def Aborted (r : RunResult) : Prop :=
  ∃ e : GenError, r.messages = [errorMessage e] ∧ r.finalResponseText = "" ∧
    r.enrichmentRan = false

/-- A run that completed: exactly one non-error model message carrying the
final text. -/
def Succeeded (r : RunResult) : Prop :=
  ∃ (txt : String) (details : Option GenerationDetails),
    r.messages =
      [{ role := .model, parts := [.text txt], isError := false,
         generationDetails := details }] ∧
    r.finalResponseText = txt ∧ r.enrichmentRan = (txt != "")

lemma errorResult_aborted (tr : List CallKind) (e : GenError) :
    Aborted (errorResult tr e) :=
  ⟨e, rfl, rfl, rfl⟩

lemma successResult_succeeded (tr : List CallKind) (txt : String)
    (d : Option GenerationDetails) :
    Succeeded (successResult tr txt d) :=
  ⟨txt, d, rfl, rfl, rfl⟩

lemma critiquePhase_outcome (gw : Gateway) (tr : List CallKind) (inits refs : List String)
    (st : String) :
    Aborted (critiquePhase gw tr inits refs st) ∨
      Succeeded (critiquePhase gw tr inits refs st) := by
  cases hc : gw .critique with
  | error e =>
    have heq : critiquePhase gw tr inits refs st = errorResult (tr ++ [.critique]) e := by
      simp [critiquePhase, hc]
    rw [heq]
    exact Or.inl (errorResult_aborted _ _)
  | ok critText =>
    by_cases h : (jsToUpper (jsTrim critText) != "PERFECT") = true
    · cases hr : gw .resynthesis with
      | error e =>
        have heq : critiquePhase gw tr inits refs st =
            errorResult (tr ++ [.critique, .resynthesis]) e := by
          simp [critiquePhase, hc, h, hr]
        rw [heq]
        exact Or.inl (errorResult_aborted _ _)
      | ok improved =>
        have heq : critiquePhase gw tr inits refs st =
            successResult (tr ++ [.critique, .resynthesis]) improved (some ⟨inits, refs⟩) := by
          simp [critiquePhase, hc, h, hr]
        rw [heq]
        exact Or.inr (successResult_succeeded _ _ _)
    · have heq : critiquePhase gw tr inits refs st =
          successResult (tr ++ [.critique]) st (some ⟨inits, refs⟩) := by
        simp [critiquePhase, hc, h]
      rw [heq]
      exact Or.inr (successResult_succeeded _ _ _)

lemma synthesisPhase_outcome (cfg : Config) (gw : Gateway) (tr : List CallKind)
    (inits refs : List String) :
    Aborted (synthesisPhase cfg gw tr inits refs) ∨
      Succeeded (synthesisPhase cfg gw tr inits refs) := by
  cases hsy : gw .synthesis with
  | error e =>
    have heq : synthesisPhase cfg gw tr inits refs = errorResult (tr ++ [.synthesis]) e := by
      simp [synthesisPhase, hsy]
    rw [heq]
    exact Or.inl (errorResult_aborted _ _)
  | ok synthText =>
    by_cases h : cfg.isSelfCorrectionEnabled = true
    · have heq : synthesisPhase cfg gw tr inits refs =
          critiquePhase gw (tr ++ [.synthesis]) inits refs synthText := by
        simp [synthesisPhase, hsy, h]
      rw [heq]
      exact critiquePhase_outcome gw _ inits refs synthText
    · have heq : synthesisPhase cfg gw tr inits refs =
          successResult (tr ++ [.synthesis]) synthText (some ⟨inits, refs⟩) := by
        simp [synthesisPhase, hsy, h]
      rw [heq]
      exact Or.inr (successResult_succeeded _ _ _)

lemma refinePhase_outcome (cfg : Config) (gw : Gateway) (tr : List CallKind)
    (inits : List String) :
    Aborted (refinePhase cfg gw tr inits) ∨ Succeeded (refinePhase cfg gw tr inits) := by
  cases hs : seqExcept ((List.range inits.length).map (fun i => gw (.refine i))) with
  | error e =>
    have heq : refinePhase cfg gw tr inits =
        errorResult (tr ++ refineCallList inits.length) e := by
      simp [refinePhase, hs]
    rw [heq]
    exact Or.inl (errorResult_aborted _ _)
  | ok refs =>
    have heq : refinePhase cfg gw tr inits =
        synthesisPhase cfg gw (tr ++ refineCallList inits.length) inits refs := by
      simp [refinePhase, hs]
    rw [heq]
    exact synthesisPhase_outcome cfg gw _ inits refs

lemma draftPhase_outcome (cfg : Config) (gw : Gateway) (tr : List CallKind) :
    Aborted (draftPhase cfg gw tr) ∨ Succeeded (draftPhase cfg gw tr) := by
  cases hs : seqExcept ((List.range (numAgents cfg.generationDepth)).map
      (fun i => gw (.initial i))) with
  | error e =>
    have heq : draftPhase cfg gw tr =
        errorResult (tr ++ initialCallList (numAgents cfg.generationDepth)) e := by
      simp [draftPhase, hs]
    rw [heq]
    exact Or.inl (errorResult_aborted _ _)
  | ok inits =>
    have heq : draftPhase cfg gw tr =
        refinePhase cfg gw (tr ++ initialCallList (numAgents cfg.generationDepth)) inits := by
      simp [draftPhase, hs]
    rw [heq]
    exact refinePhase_outcome cfg gw _ inits

lemma runMulti_outcome (cfg : Config) (gw : Gateway) :
    Aborted (runMulti cfg gw) ∨ Succeeded (runMulti cfg gw) := by
  by_cases hmode : (cfg.researchMode == ResearchMode.web ||
      cfg.researchMode == ResearchMode.deep) = true
  · cases hgw : gw .search with
    | error e =>
      have heq : runMulti cfg gw = errorResult [.search] e := by
        simp [runMulti, hmode, hgw]
      rw [heq]
      exact Or.inl (errorResult_aborted _ _)
    | ok s =>
      have heq : runMulti cfg gw = draftPhase cfg gw [.search] := by
        simp [runMulti, hmode, hgw]
      rw [heq]
      exact draftPhase_outcome cfg gw _
  · have heq : runMulti cfg gw = draftPhase cfg gw [] := by
      simp [runMulti, hmode]
    rw [heq]
    exact draftPhase_outcome cfg gw _

lemma runFast_outcome (gw : Gateway) :
    Aborted (runFast gw) ∨ Succeeded (runFast gw) := by
  cases hgw : gw .fastGen with
  | error e =>
    have heq : runFast gw = errorResult [.fastGen] e := by simp [runFast, hgw]
    rw [heq]
    exact Or.inl (errorResult_aborted _ _)
  | ok t =>
    have heq : runFast gw = successResult [.fastGen] t none := by simp [runFast, hgw]
    rw [heq]
    exact Or.inr (successResult_succeeded _ _ _)

lemma executeGeneration_outcome (cfg : Config) (gw : Gateway) :
    Aborted (executeGeneration cfg gw) ∨ Succeeded (executeGeneration cfg gw) := by
  by_cases hd : (cfg.generationDepth == GenerationDepth.fast) = true
  · have heq : executeGeneration cfg gw = runFast gw := by simp [executeGeneration, hd]
    rw [heq]
    exact runFast_outcome gw
  · have heq : executeGeneration cfg gw = runMulti cfg gw := by simp [executeGeneration, hd]
    rw [heq]
    exact runMulti_outcome cfg gw

/-! ### C1 -/

/-- C1: in every balanced- or deep-depth run with self-correction enabled
whose calls up to the critique all resolve, if the critique text after
trimming and uppercasing equals PERFECT then the final message text is the
first synthesis output unchanged and no resynthesis call is made; for any
other critique text exactly one resynthesis call is made, its output
replaces the final text, and no second critique call happens in the run. -/
theorem selfCorrection_perfect_or_one_resynthesis
    (cfg : Config) (gw : Gateway)
    (hdepth : cfg.generationDepth ≠ .fast)
    (hsc : cfg.isSelfCorrectionEnabled = true)
    (hsearch : (cfg.researchMode = .web ∨ cfg.researchMode = .deep) →
      exOk (gw .search) = true)
    (hinit : ∀ i, exOk (gw (.initial i)) = true)
    (href : ∀ i, exOk (gw (.refine i)) = true)
    (synthText critText : String)
    (hsyn : gw .synthesis = .ok synthText)
    (hcrit : gw .critique = .ok critText) :
    (jsToUpper (jsTrim critText) = "PERFECT" →
      (executeGeneration cfg gw).finalResponseText = synthText ∧
      (executeGeneration cfg gw).messages.map Message.parts = [[.text synthText]] ∧
      (executeGeneration cfg gw).trace.countP isResynthesisCall = 0 ∧
      (executeGeneration cfg gw).trace.countP isCritiqueCall = 1) ∧
    (jsToUpper (jsTrim critText) ≠ "PERFECT" →
      ∀ improved : String, gw .resynthesis = .ok improved →
        (executeGeneration cfg gw).finalResponseText = improved ∧
        (executeGeneration cfg gw).messages.map Message.parts = [[.text improved]] ∧
        (executeGeneration cfg gw).trace.countP isResynthesisCall = 1 ∧
        (executeGeneration cfg gw).trace.countP isCritiqueCall = 1) := by
  obtain ⟨tr₀, hrm, htr₀⟩ := runMulti_eq_draftPhase cfg gw hsearch
  obtain ⟨inits, hilen, hdp⟩ := draftPhase_success cfg gw tr₀ (fun i _ => hinit i)
  obtain ⟨refs, hrlen, hrp⟩ := refinePhase_success cfg gw
    (tr₀ ++ initialCallList (numAgents cfg.generationDepth)) inits (fun i _ => href i)
  have hsp : synthesisPhase cfg gw
      ((tr₀ ++ initialCallList (numAgents cfg.generationDepth)) ++
        refineCallList inits.length) inits refs =
      critiquePhase gw
        (((tr₀ ++ initialCallList (numAgents cfg.generationDepth)) ++
          refineCallList inits.length) ++ [.synthesis]) inits refs synthText := by
    simp [synthesisPhase, hsyn, hsc]
  have hexec : executeGeneration cfg gw =
      critiquePhase gw
        (((tr₀ ++ initialCallList (numAgents cfg.generationDepth)) ++
          refineCallList inits.length) ++ [.synthesis]) inits refs synthText := by
    rw [executeGeneration_eq_runMulti cfg gw hdepth, hrm, hdp, hrp, hsp]
  have htr₀res : tr₀.countP isResynthesisCall = 0 :=
    List.countP_eq_zero.mpr (fun k hk => by simp [htr₀ k hk, isResynthesisCall])
  have htr₀cri : tr₀.countP isCritiqueCall = 0 :=
    List.countP_eq_zero.mpr (fun k hk => by simp [htr₀ k hk, isCritiqueCall])
  constructor
  · intro hperfect
    have hbne : (jsToUpper (jsTrim critText) != "PERFECT") = false := by
      simp [hperfect]
    have hcp : critiquePhase gw
        (((tr₀ ++ initialCallList (numAgents cfg.generationDepth)) ++
          refineCallList inits.length) ++ [.synthesis]) inits refs synthText =
        successResult
          ((((tr₀ ++ initialCallList (numAgents cfg.generationDepth)) ++
            refineCallList inits.length) ++ [.synthesis]) ++ [.critique])
          synthText (some ⟨inits, refs⟩) := by
      simp [critiquePhase, hcrit, hbne]
    rw [hexec, hcp]
    refine ⟨rfl, rfl, ?_, ?_⟩
    · simp [successResult, List.countP_append, htr₀res,
        initialCallList_countP_of_false isResynthesisCall (fun _ => rfl),
        refineCallList_countP_of_false isResynthesisCall (fun _ => rfl),
        List.countP_cons, isResynthesisCall]
    · simp [successResult, List.countP_append, htr₀cri,
        initialCallList_countP_of_false isCritiqueCall (fun _ => rfl),
        refineCallList_countP_of_false isCritiqueCall (fun _ => rfl),
        List.countP_cons, isCritiqueCall]
  · intro hnp improved hre
    have hbne : (jsToUpper (jsTrim critText) != "PERFECT") = true := by
      simp [hnp]
    have hcp : critiquePhase gw
        (((tr₀ ++ initialCallList (numAgents cfg.generationDepth)) ++
          refineCallList inits.length) ++ [.synthesis]) inits refs synthText =
        successResult
          ((((tr₀ ++ initialCallList (numAgents cfg.generationDepth)) ++
            refineCallList inits.length) ++ [.synthesis]) ++ [.critique, .resynthesis])
          improved (some ⟨inits, refs⟩) := by
      simp [critiquePhase, hcrit, hbne, hre]
    rw [hexec, hcp]
    refine ⟨rfl, rfl, ?_, ?_⟩
    · simp [successResult, List.countP_append, htr₀res,
        initialCallList_countP_of_false isResynthesisCall (fun _ => rfl),
        refineCallList_countP_of_false isResynthesisCall (fun _ => rfl),
        List.countP_cons, isResynthesisCall]
    · simp [successResult, List.countP_append, htr₀cri,
        initialCallList_countP_of_false isCritiqueCall (fun _ => rfl),
        refineCallList_countP_of_false isCritiqueCall (fun _ => rfl),
        List.countP_cons, isCritiqueCall]

/-- Oracle for the C1 witness: every call resolves; the critique is not
PERFECT, so one resynthesis happens and its text wins. -/
def gwRevise : Gateway := fun k =>
  match k with
  | .critique => .ok "precisa melhorar a clareza"
  | .synthesis => .ok "resposta final"
  | .resynthesis => .ok "resposta melhorada"
  | _ => .ok "rascunho"

/-- Witness for C1: a balanced offline run with a non-PERFECT critique. -/
theorem selfCorrection_perfect_or_one_resynthesis_witness :
    (executeGeneration ⟨.offline, .balanced, true⟩ gwRevise).finalResponseText =
      "resposta melhorada" ∧
    (executeGeneration ⟨.offline, .balanced, true⟩ gwRevise).messages.map Message.parts =
      [[.text "resposta melhorada"]] ∧
    (executeGeneration ⟨.offline, .balanced, true⟩ gwRevise).trace.countP isResynthesisCall
      = 1 ∧
    (executeGeneration ⟨.offline, .balanced, true⟩ gwRevise).trace.countP isCritiqueCall
      = 1 := by
  have h := (selfCorrection_perfect_or_one_resynthesis ⟨.offline, .balanced, true⟩ gwRevise
    (by decide) rfl (fun _ => rfl) (fun _ => rfl) (fun _ => rfl)
    "resposta final" "precisa melhorar a clareza" rfl rfl).2
  exact h (by decide) "resposta melhorada" rfl

/-! ### C2 -/

/-- C2: with the web-search step (when present) resolving, every non-fast
run issues exactly numAgents initial-draft calls, where numAgents is 2 for
balanced and 4 for deep; the refinement fan-out issues exactly one call per
initial draft when all initial calls resolved and none at all when any
initial call rejected; and the message of a completed run carries
generation details whose initial and refined lists both have length
numAgents. -/
theorem fanout_widths_and_join (cfg : Config) (gw : Gateway)
    (hdepth : cfg.generationDepth ≠ .fast)
    (hsearch : (cfg.researchMode = .web ∨ cfg.researchMode = .deep) →
      exOk (gw .search) = true) :
    numAgents .balanced = 2 ∧
    numAgents .deep = 4 ∧
    (executeGeneration cfg gw).trace.countP isInitialCall = numAgents cfg.generationDepth ∧
    ((∀ i, i < numAgents cfg.generationDepth → exOk (gw (.initial i)) = true) →
      (executeGeneration cfg gw).trace.countP isRefineCall
        = numAgents cfg.generationDepth) ∧
    ((∃ i, i < numAgents cfg.generationDepth ∧ exOk (gw (.initial i)) = false) →
      (executeGeneration cfg gw).trace.countP isRefineCall = 0) ∧
    (∀ m ∈ (executeGeneration cfg gw).messages, m.isError = false →
      ∃ d : GenerationDetails, m.generationDetails = some d ∧
        d.initial.length = numAgents cfg.generationDepth ∧
        d.refined.length = numAgents cfg.generationDepth) := by
  obtain ⟨tr₀, hrm, htr₀⟩ := runMulti_eq_draftPhase cfg gw hsearch
  have hexec : executeGeneration cfg gw = draftPhase cfg gw tr₀ :=
    (executeGeneration_eq_runMulti cfg gw hdepth).trans hrm
  have htr₀init : tr₀.countP isInitialCall = 0 :=
    List.countP_eq_zero.mpr (fun k hk => by simp [htr₀ k hk, isInitialCall])
  have htr₀ref : tr₀.countP isRefineCall = 0 :=
    List.countP_eq_zero.mpr (fun k hk => by simp [htr₀ k hk, isRefineCall])
  refine ⟨rfl, rfl, ?_, ?_, ?_, ?_⟩
  · obtain ⟨ext, hext, hmem⟩ := draftPhase_trace cfg gw tr₀
    rw [hexec, hext]
    have hextinit : ext.countP isInitialCall = 0 :=
      List.countP_eq_zero.mpr (fun k hk => by
        rcases hmem k hk with ⟨i, rfl⟩ | rfl | rfl | rfl <;> simp [isInitialCall])
    simp [List.countP_append, htr₀init, hextinit, initialCallList_countP_initial]
  · intro hall
    obtain ⟨inits, hilen, hdp⟩ := draftPhase_success cfg gw tr₀ hall
    obtain ⟨ext, hext, hmem⟩ := refinePhase_trace cfg gw
      (tr₀ ++ initialCallList (numAgents cfg.generationDepth)) inits
    rw [hexec, hdp, hext]
    have hextref : ext.countP isRefineCall = 0 :=
      List.countP_eq_zero.mpr (fun k hk => by
        rcases hmem k hk with rfl | rfl | rfl <;> simp [isRefineCall])
    simp [List.countP_append, htr₀ref, hextref, refineCallList_countP_refine,
      initialCallList_countP_of_false isRefineCall (fun _ => rfl), hilen]
  · rintro ⟨i, hi, hfail⟩
    have hmem2 : gw (.initial i) ∈ (List.range (numAgents cfg.generationDepth)).map
        (fun j => gw (.initial j)) :=
      List.mem_map.mpr ⟨i, List.mem_range.mpr hi, rfl⟩
    obtain ⟨e, he⟩ := seqExcept_error_of_mem_fail ⟨gw (.initial i), hmem2, hfail⟩
    have hdp : draftPhase cfg gw tr₀ =
        errorResult (tr₀ ++ initialCallList (numAgents cfg.generationDepth)) e := by
      simp [draftPhase, he]
    rw [hexec, hdp]
    simp [errorResult, List.countP_append, htr₀ref,
      initialCallList_countP_of_false isRefineCall (fun _ => rfl)]
  · rw [hexec]
    exact draftPhase_details cfg gw tr₀

/-- Oracle for the C2 witness: every call resolves. -/
def gwJoin : Gateway := fun _ => .ok "rascunho"

/-- Witness for C2: a deep web run issues 4 initial and 4 refinement
calls. -/
theorem fanout_widths_and_join_witness :
    (executeGeneration ⟨.web, .deep, true⟩ gwJoin).trace.countP isInitialCall = 4 ∧
    (executeGeneration ⟨.web, .deep, true⟩ gwJoin).trace.countP isRefineCall = 4 := by
  have h := fanout_widths_and_join ⟨.web, .deep, true⟩ gwJoin (by decide) (fun _ => rfl)
  exact ⟨h.2.2.1, h.2.2.2.1 (fun _ _ => rfl)⟩

/-! ### C3 -/

/-- C3: the Search Gate is engaged exactly when the research mode is
literally web and the depth is not fast; in deep research mode (depth not
fast) the submission goes straight to the orchestrator, which performs the
web-search call with no confirmation step. -/
theorem searchGate_iff_web_not_fast :
    ∀ (mode : ResearchMode) (depth : GenerationDepth),
      (engagesSearchGate mode depth = true ↔ (mode = .web ∧ depth ≠ .fast)) ∧
      (mode = .deep → depth ≠ .fast →
        submitRoute mode depth = .direct ∧
        ∀ (sc : Bool) (gw : Gateway),
          CallKind.search ∈ (executeGeneration ⟨mode, depth, sc⟩ gw).trace) := by
  intro mode depth
  constructor
  · constructor
    · intro h
      cases mode <;> cases depth <;> simp_all [engagesSearchGate]
    · rintro ⟨rfl, hd⟩
      cases depth <;> simp_all [engagesSearchGate]
  · rintro rfl hd
    constructor
    · cases depth <;> simp_all [submitRoute, engagesSearchGate]
    · intro sc gw
      have hexec : executeGeneration ⟨.deep, depth, sc⟩ gw =
          runMulti ⟨.deep, depth, sc⟩ gw :=
        executeGeneration_eq_runMulti ⟨.deep, depth, sc⟩ gw hd
      rw [hexec]
      cases hgw : gw .search with
      | error e =>
        have heq : runMulti ⟨.deep, depth, sc⟩ gw = errorResult [.search] e := by
          simp [runMulti, hgw]
        rw [heq]
        simp [errorResult]
      | ok s =>
        have heq : runMulti ⟨.deep, depth, sc⟩ gw =
            draftPhase ⟨.deep, depth, sc⟩ gw [.search] := by
          simp [runMulti, hgw]
        rw [heq]
        obtain ⟨ext, hext, _⟩ := draftPhase_trace ⟨.deep, depth, sc⟩ gw [.search]
        rw [hext]
        simp

/-- Witness for C3: deep mode at balanced depth routes straight to the
orchestrator and its trace contains the search call. -/
theorem searchGate_iff_web_not_fast_witness :
    submitRoute .deep .balanced = .direct ∧
    CallKind.search ∈
      (executeGeneration ⟨.deep, .balanced, true⟩ (fun _ => .ok "texto")).trace := by
  have h := (searchGate_iff_web_not_fast .deep .balanced).2 rfl (by decide)
  exact ⟨h.1, h.2 true (fun _ => .ok "texto")⟩

/-! ### C4 -/

/-- C4: whenever a run produced any error message at all, it produced
exactly one message: role model, isError true, text equal to the
classified user-facing explanation, no generation details; the final text
is cleared, so neither memory extraction nor suggestion generation runs
afterwards. -/
theorem generation_error_aborts_run (cfg : Config) (gw : Gateway)
    (herr : (executeGeneration cfg gw).messages.any (fun m => m.isError) = true) :
    ∃ e : GenError,
      (executeGeneration cfg gw).messages =
        [{ role := .model, parts := [.text (classify e)], isError := true,
           generationDetails := none }] ∧
      (executeGeneration cfg gw).finalResponseText = "" ∧
      (executeGeneration cfg gw).enrichmentRan = false := by
  rcases executeGeneration_outcome cfg gw with ⟨e, hm, hf, hen⟩ | ⟨txt, d, hm, hf, hen⟩
  · exact ⟨e, hm, hf, hen⟩
  · rw [hm] at herr
    simp at herr

/-- Oracle for the C4 witness: the synthesis call rejects with a deadline
error, everything before it resolves. -/
def gwTimeout : Gateway := fun k =>
  match k with
  | .synthesis => .error ⟨"Deadline exceeded while awaiting the model response"⟩
  | _ => .ok "rascunho"

/-- Witness for C4: a deep offline run whose synthesis call times out
appends exactly one classified error message and runs no enrichment. -/
theorem generation_error_aborts_run_witness :
    ∃ e : GenError,
      (executeGeneration ⟨.offline, .deep, true⟩ gwTimeout).messages =
        [{ role := .model, parts := [.text (classify e)], isError := true,
           generationDetails := none }] ∧
      (executeGeneration ⟨.offline, .deep, true⟩ gwTimeout).finalResponseText = "" ∧
      (executeGeneration ⟨.offline, .deep, true⟩ gwTimeout).enrichmentRan = false :=
  generation_error_aborts_run ⟨.offline, .deep, true⟩ gwTimeout (by decide)
